import Mathlib

/-!
Verification development for the big-chefs-dashboard map component
(`LocationMap`): the CSV destination-normalization pipeline, the
destination selector, the Bézier arc geometry of `drawArcs`, the dash
and pulse animations, and the precondition guards.

Numbers are modelled as exact rationals (`ℚ`) or reals (`ℝ`).  Two
auxiliary models capture the aspects of JavaScript IEEE-754 semantics
that the claims turn on: `F64` models binary64 round-to-nearest-even
accumulation (for the Bézier sampling loop), and `JSNum` models the
special values Infinity/NaN with exact real finite parts (for the
division-by-zero path in the control-point computation).
-/

namespace BigChefs

/-- A dynamically typed CSV cell as produced by `Papa.parse` with
`dynamicTyping: true`: absent/empty (`null`/`undefined`), a number, or
a string (numeric-looking strings with a comma decimal separator stay
strings). -/
inductive CellVal where
  | null : CellVal
  | num : ℚ → CellVal
  | str : String → CellVal
deriving DecidableEq

/-- JavaScript truthiness of a cell: `null`/`undefined`, `0` and `""`
are falsy, everything else truthy. -/
def truthy : CellVal → Bool
  | .null => false
  | .num q => q != 0
  | .str s => s != ""

/-- JavaScript `a || b` on cells. -/
def jsOrCell (a b : CellVal) : CellVal := if truthy a then a else b

/-- Whitespace accepted by JS number parsing. -/
def isSpace (c : Char) : Bool := c = ' ' || c = '\t' || c = '\n' || c = '\r'

def digitVal (c : Char) : ℕ := c.toNat - 48

def natOfDigits (ds : List Char) : ℕ :=
  ds.foldl (fun n c => 10 * n + digitVal c) 0

/-- Significand of a JS decimal literal: digits, optionally followed by
`.` and more digits; at least one digit overall.  Returns the value and
the unconsumed suffix. -/
def parseSignificand (cs : List Char) : Option (ℚ × List Char) :=
  let p := cs.span Char.isDigit
  match p.2 with
  | '.' :: rest =>
    let q := rest.span Char.isDigit
    if p.1.isEmpty && q.1.isEmpty then none
    else some ((natOfDigits p.1 : ℚ) + (natOfDigits q.1 : ℚ) / 10 ^ q.1.length, q.2)
  | _ => if p.1.isEmpty then none else some ((natOfDigits p.1 : ℚ), p.2)

/-- Exponent suffix `e`/`E` with optional sign and at least one digit;
consumed only when well formed (JS treats a malformed exponent suffix
as trailing junk). -/
def parseExpChars (cs : List Char) : Option (ℤ × List Char) :=
  match cs with
  | c :: rest =>
    if c = 'e' || c = 'E' then
      match rest with
      | c2 :: rest2 =>
        if c2 = '-' then
          let p := rest2.span Char.isDigit
          if p.1.isEmpty then none else some (-(natOfDigits p.1 : ℤ), p.2)
        else if c2 = '+' then
          let p := rest2.span Char.isDigit
          if p.1.isEmpty then none else some ((natOfDigits p.1 : ℤ), p.2)
        else
          let p := (c2 :: rest2).span Char.isDigit
          if p.1.isEmpty then none else some ((natOfDigits p.1 : ℤ), p.2)
      | [] => none
    else none
  | [] => none

/-- JS `parseFloat` on a character list: leading whitespace skipped,
optional sign, decimal significand, optional exponent; trailing junk
ignored.  `none` models `NaN`.  Returns the unconsumed suffix so that
full-string conversion (`Number`) can be defined on top.  (The
`Infinity` literal is not modelled; see `toNumber` note.) -/
def parseFloatChars (cs : List Char) : Option (ℚ × List Char) :=
  let cs1 := cs.dropWhile isSpace
  let sgn : Bool × List Char :=
    match cs1 with
    | c :: rest =>
      if c = '-' then (true, rest)
      else if c = '+' then (false, rest)
      else (false, c :: rest)
    | [] => (false, [])
  match parseSignificand sgn.2 with
  | none => none
  | some (m, cs2) =>
    let v :=
      match parseExpChars cs2 with
      | some (e, cs3) => ((m * 10 ^ e : ℚ), cs3)
      | none => (m, cs2)
    some (if sgn.1 then -v.1 else v.1, v.2)

def parseFloatQ (s : String) : Option ℚ := (parseFloatChars s.data).map Prod.fst

/-- JS `parseInt(·, 10)`-style parse: leading whitespace, optional
sign, then the longest digit run; `none` (NaN) when no digit starts.
(Hexadecimal prefixes are not modelled — the visitor-count data never
uses them.) -/
def parseIntChars (cs : List Char) : Option ℤ :=
  let cs1 := cs.dropWhile isSpace
  match cs1 with
  | c :: rest =>
    if c = '-' then
      let p := rest.span Char.isDigit
      if p.1.isEmpty then none else some (-(natOfDigits p.1 : ℤ))
    else if c = '+' then
      let p := rest.span Char.isDigit
      if p.1.isEmpty then none else some ((natOfDigits p.1 : ℤ))
    else
      let p := cs1.span Char.isDigit
      if p.1.isEmpty then none else some ((natOfDigits p.1 : ℤ))
  | [] => none

/-- First-occurrence character replacement, as JS
`String.prototype.replace` with a string pattern replaces only the
first match. -/
def replaceFirstChar (target : Char) (repl : List Char) : List Char → List Char
  | [] => []
  | c :: cs => if c = target then repl ++ cs else c :: replaceFirstChar target repl cs

/-- `.replace(",", ".")` from the source. -/
def commaToDot (cs : List Char) : List Char := replaceFirstChar ',' ['.'] cs

/-- `.replace("'", "")` from the source (the apostrophe character,
code point 39). -/
def stripQuote (cs : List Char) : List Char := replaceFirstChar (Char.ofNat 39) [] cs

/-- `parseFloat(String(v).replace(",", ".").replace("'", ""))` on a
cell.  For a numeric cell, `String(number)` is the shortest
round-tripping representation (it contains no comma and no quote), so
the composite returns the number itself.  `null` never reaches this
function (the `||`-chains end in a truthy-or-`""` value); its value
models `parseFloat("null") = NaN`. -/
def coordParse : CellVal → Option ℚ
  | .num q => some q
  | .str s => (parseFloatChars (stripQuote (commaToDot s.data))).map Prod.fst
  | .null => none

/-- JS `ToNumber` of a cell, used by the comparison
`row.visitor_count > 0`: `null` → `0`, a string is trimmed and must be
consumed entirely (`""` → `0`); `none` models NaN. -/
def toNumber : CellVal → Option ℚ
  | .null => some 0
  | .num q => some q
  | .str s =>
    let cs := ((s.data.dropWhile isSpace).reverse.dropWhile isSpace).reverse
    if cs.isEmpty then some 0
    else
      match parseFloatChars cs with
      | some (q, []) => some q
      | _ => none

/-- The boolean `row.visitor_count > 0` (JS relational comparison with
number coercion; NaN compares false). -/
def cellGtZero (v : CellVal) : Bool :=
  match toNumber v with
  | some q => decide (0 < q)
  | none => false

/-- `parseInt(String(v))` on a cell: a numeric cell prints as its
decimal representation, so `parseInt` truncates it toward zero. -/
def visitorParse : CellVal → Option ℤ
  | .num q => some (if 0 ≤ q then ⌊q⌋ else ⌈q⌉)
  | .str s => parseIntChars s.data
  | .null => none

/-- A raw CSV row restricted to the fields the destination pipeline
reads.  Fields: KoordinatX, KoordinatY, latitude, longitude,
visitor_count, place_name, MusteriTabelaAdi, MusteriCesidi. -/
structure RawRow where
  KoordinatX : CellVal
  KoordinatY : CellVal
  latitude : CellVal
  longitude : CellVal
  visitor_count : CellVal
  place_name : CellVal
  MusteriTabelaAdi : CellVal
  MusteriCesidi : CellVal
deriving DecidableEq

/-- First filter of the pipeline (source lines 159–164):
`hasCoordinates && hasVisitors` with JS truthiness. -/
def rowHasData (row : RawRow) : Bool :=
  ((truthy row.KoordinatX && truthy row.KoordinatY) ||
    (truthy row.latitude && truthy row.longitude)) &&
  (truthy row.visitor_count && cellGtZero row.visitor_count)

/-- The mapped record (source lines 165–182).  `Option` encodes a
possible NaN in `lat`/`lng`/`visitorCount`. -/
structure MappedDest where
  name : CellVal
  lat : Option ℚ
  lng : Option ℚ
  visitorCount : Option ℤ
  type : CellVal
deriving DecidableEq

/-- `String(row.KoordinatX || row.latitude || "")` feeding `lat`. -/
def chainX (row : RawRow) : CellVal :=
  jsOrCell row.KoordinatX (jsOrCell row.latitude (.str ""))

/-- `String(row.KoordinatY || row.longitude || "")` feeding `lng`. -/
def chainY (row : RawRow) : CellVal :=
  jsOrCell row.KoordinatY (jsOrCell row.longitude (.str ""))

def toMapped (row : RawRow) : MappedDest where
  name := jsOrCell row.place_name (jsOrCell row.MusteriTabelaAdi (.str "Unknown Location"))
  lat := coordParse (chainX row)
  lng := coordParse (chainY row)
  visitorCount := visitorParse (jsOrCell row.visitor_count (.num 0))
  type := jsOrCell row.MusteriCesidi (.str "Unspecified")

/-- Second filter (source lines 183–187): `!isNaN(lat) && !isNaN(lng)
&& |lat| <= 90 && |lng| <= 180 && visitorCount > 0`. -/
def validMapped (d : MappedDest) : Bool :=
  match d.lat, d.lng, d.visitorCount with
  | some la, some ln, some vc => decide (|la| ≤ 90) && decide (|ln| ≤ 180) && decide (0 < vc)
  | _, _, _ => false

/-- The filter–map–filter normalization step of the destinations
pipeline (source lines 158–187, before sorting and truncation). -/
def normStep (rows : List RawRow) : List MappedDest :=
  ((rows.filter rowHasData).map toMapped).filter validMapped

/-- The sort key: the `visitorCount` number seen by the comparator
`(a, b) => b.visitorCount - a.visitorCount` (the preceding filter
guarantees the field is a genuine positive integer). -/
def vcKey (d : MappedDest) : ℤ := d.visitorCount.getD 0

/-- Stable descending insertion: a new element goes in front of the
first element whose key is not larger.  ECMAScript
`Array.prototype.sort` with the consistent comparator above is
specified to produce the unique stable non-increasing order, which
this insertion sort realizes. -/
def insertVC (d : MappedDest) : List MappedDest → List MappedDest
  | [] => [d]
  | e :: es => if vcKey e ≤ vcKey d then d :: e :: es else e :: insertVC d es

/-- `.sort((a, b) => b.visitorCount - a.visitorCount)`
(source line 188). -/
def sortByVisitorsDesc (l : List MappedDest) : List MappedDest := l.foldr insertVC []

/-- `.sort(...).slice(0, maxArcs)` (source lines 188–189). -/
def select (l : List MappedDest) (max : ℕ) : List MappedDest :=
  (sortByVisitorsDesc l).take max

/-- The whole destination pipeline: normalize, rank, truncate. -/
def topDestinations (rows : List RawRow) (maxArcs : ℕ) : List MappedDest :=
  select (normStep rows) maxArcs

/-- The fixed five-color palette of `drawArcs`
(source lines 335–341). -/
def palette : List String := ["#3B82F6", "#8B5CF6", "#EC4899", "#F97316", "#10B981"]

/-- `0.3 + (dest.visitorCount / maxVisitors) * 0.7`
(source line 357). -/
def normalizedValue (v maxV : ℤ) : ℚ := 3/10 + ((v : ℚ) / (maxV : ℚ)) * (7/10)

/-- `Math.max(...arcsDestinations.map(d => d.visitorCount))`
(source line 328); `drawArcs` only reaches this with a nonempty
list. -/
def maxVisitors (ds : List MappedDest) : ℤ := ((ds.map vcKey).max?).getD 0

/-- `5 + normalizedValue * 5`, used both as the marker radius summand
and as the dash-array length (source lines 420 and 441). -/
def dashLen (n : ℚ) : ℚ := 5 + n * 5

/-- The visual attributes of one rendered arc: stroke color and weight
of the polyline (source lines 411–416), radius of the destination
marker (lines 419–426) and the dash-array length of its animation
(line 441). -/
structure ArcRender where
  dest : MappedDest
  color : String
  weight : ℚ
  radius : ℚ
  dashArray : ℚ
deriving DecidableEq

/-- The arc built for the destination at (0-based) rank `i`. -/
def render (i : ℕ) (d : MappedDest) (maxV : ℤ) : ArcRender :=
  let n := normalizedValue (vcKey d) maxV
  { dest := d
    color := palette.getD (i % palette.length) ""
    weight := 2 + n * 3
    radius := 5 + n * 5
    dashArray := dashLen n }

/-- The `forEach` over destinations in `drawArcs` (source lines
351–459).  Each iteration body is wrapped in `try`/`catch`; the `Bool`
flag models an exception thrown while constructing that destination's
arc (e.g. by a rendering-library call), in which case the iteration is
caught, contributes no arc and no timer, and the loop continues with
the next destination. -/
def processAll (ds : List (MappedDest × Bool)) : List ArcRender :=
  let maxV := maxVisitors (ds.map Prod.fst)
  ds.enum.foldl (fun acc x => if x.2.2 then acc else acc ++ [render x.1 x.2.1 maxV]) []

/-- The failure-free rendering pass. -/
def renderAll (ds : List MappedDest) : List ArcRender :=
  processAll (ds.map (fun d => (d, false)))

/-- A layer on the map.  Arc polylines are created with
`className: 'flow-arc'`; destination markers carry no class name. -/
inductive Layer where
  | arcLine : ArcRender → Layer
  | destMarker : ArcRender → Layer
  | other : String → Layer
deriving DecidableEq

/-- The `options.className` test used when clearing previous arcs
(source lines 344–348). -/
def layerClass : Layer → String
  | .arcLine _ => "flow-arc"
  | .destMarker _ => ""
  | .other s => s

/-- `drawArcs` as a state transformer (source lines 297–474): inputs
are the map reference, the destination list (with per-destination
failure flags, see `processAll`) and the restaurant coordinates; the
output is the new map state (`none` = no map) and the number of
animation intervals started.  The three precondition guards (null map
reference, empty destination list, missing restaurant coordinates)
return early, before anything is touched.  Otherwise layers of class
`flow-arc` are removed and each successfully constructed arc adds a
polyline, a destination marker and one interval timer. -/
def drawArcsM (m : Option (List Layer)) (ds : List (MappedDest × Bool))
    (rc : Option (ℚ × ℚ)) : Option (List Layer) × ℕ :=
  match m with
  | none => (none, 0)
  | some st =>
    if ds.isEmpty then (some st, 0)
    else
      match rc with
      | none => (some st, 0)
      | some _ =>
        let cleared := st.filter (fun l => !(layerClass l == "flow-arc"))
        let rendered := processAll ds
        (some (cleared ++ rendered.foldr (fun r acc => .arcLine r :: .destMarker r :: acc) []),
          rendered.length)

/-- JavaScript `%` restricted to the nonnegative operands it meets
here: `a - b * ⌊a / b⌋`. -/
def jsMod (a b : ℚ) : ℚ := a - b * ⌊a / b⌋

/-- The dash offset after `t` executions of `animateArc` (source lines
440–448): the offset starts at 0 and every tick runs
`offset = (offset + 1) % (dashArray * 2)`. -/
def offsetSeq (dashArray : ℚ) : ℕ → ℚ
  | 0 => 0
  | t + 1 => jsMod (offsetSeq dashArray t + 1) (dashArray * 2)

/-- State of the origin-marker pulse animation. -/
structure PulseState where
  size : ℚ
  increasing : Bool
  opacity : ℚ
deriving DecidableEq

/-- Initial pulse state (source lines 537–551): radius 10, growing,
opacity 0.3. -/
def pulseInit : PulseState := ⟨10, true, 3/10⟩

/-- One 50 ms pulse tick (source lines 552–561).  The tick only calls
`pulse.setRadius(size)`; no opacity update appears in the interval
body, so the opacity component is carried through unchanged.  All
quantities involved are integer multiples of 0.5 well inside binary64
range, so IEEE-754 arithmetic on them is exact and this rational model
is bit-faithful. -/
def pulseTick (s : PulseState) : PulseState :=
  if s.increasing then
    let sz := s.size + 1/2
    ⟨sz, if sz ≥ 25 then false else true, s.opacity⟩
  else
    let sz := s.size - 1/2
    ⟨sz, if sz ≤ 10 then true else false, s.opacity⟩

/-- Pulse state after `n` ticks. -/
def pulseIter : ℕ → PulseState
  | 0 => pulseInit
  | n + 1 => pulseTick (pulseIter n)

/-! ### Arc geometry over the reals

Exact-real reading of the per-destination geometry of `drawArcs`
(source lines 364–408).  Points are `(lat, lng)` pairs. -/

/-- `midX`/`midY` (source lines 370–371). -/
noncomputable def midPt (o d : ℝ × ℝ) : ℝ × ℝ := ((o.1 + d.1) / 2, (o.2 + d.2) / 2)

/-- `distance = Math.sqrt(Math.pow(dx, 2) + Math.pow(dy, 2))`
(source lines 374–377). -/
noncomputable def distanceOD (o d : ℝ × ℝ) : ℝ :=
  Real.sqrt ((d.1 - o.1) ^ 2 + (d.2 - o.2) ^ 2)

/-- `controlHeight = distance * 0.2` (source line 380). -/
noncomputable def ctrlHeight (o d : ℝ × ℝ) : ℝ := distanceOD o d * (2/10)

/-- `normFactor = 1 / Math.sqrt(dx * dx + dy * dy)`
(source lines 383–385). -/
noncomputable def normFactor (o d : ℝ × ℝ) : ℝ :=
  1 / Real.sqrt ((d.1 - o.1) * (d.1 - o.1) + (d.2 - o.2) * (d.2 - o.2))

/-- `(perpX, perpY)` (source lines 386–387). -/
noncomputable def perp (o d : ℝ × ℝ) : ℝ × ℝ :=
  (-(d.2 - o.2) * normFactor o d, (d.1 - o.1) * normFactor o d)

/-- `controlPoint` (source lines 390–393). -/
noncomputable def controlPoint (o d : ℝ × ℝ) : ℝ × ℝ :=
  ((midPt o d).1 + (perp o d).1 * ctrlHeight o d,
   (midPt o d).2 + (perp o d).2 * ctrlHeight o d)

/-- One quadratic Bézier sample (source lines 398–405). -/
noncomputable def bezier (o c d : ℝ × ℝ) (t : ℝ) : ℝ × ℝ :=
  ((1 - t) ^ 2 * o.1 + 2 * (1 - t) * t * c.1 + t ^ 2 * d.1,
   (1 - t) ^ 2 * o.2 + 2 * (1 - t) * t * c.2 + t ^ 2 * d.2)

/-- Modelled from the spec: the Euclidean norm of
`destination - origin` in raw coordinate-degree space. -/
noncomputable def specNorm (o d : ℝ × ℝ) : ℝ :=
  Real.sqrt ((d.1 - o.1) ^ 2 + (d.2 - o.2) ^ 2)

/-- Modelled from the spec: the unit perpendicular
`normalize(rotate90(destination - origin))`. -/
noncomputable def specPerpUnit (o d : ℝ × ℝ) : ℝ × ℝ :=
  (-(d.2 - o.2) / specNorm o d, (d.1 - o.1) / specNorm o d)

/-- Modelled from the spec: `controlPoint = mid + perp * controlHeight`
with `controlHeight = 0.2 * ‖destination - origin‖`. -/
noncomputable def specControlPoint (o d : ℝ × ℝ) : ℝ × ℝ :=
  ((midPt o d).1 + (specPerpUnit o d).1 * ((2/10) * specNorm o d),
   (midPt o d).2 + (specPerpUnit o d).2 * ((2/10) * specNorm o d))

/-! ### The sampling loop `for (let t = 0; t <= 1; t += 0.05)`

Two readings of source lines 396–408: exact rational arithmetic, and
actual binary64 accumulation. -/

/-- The loop's `t` values under exact rational arithmetic, starting at
`t` (the literal `0.05` read as `5/100`).  Terminates because `t`
grows by `1/20` each iteration while the guard requires `t ≤ 1`. -/
def loopTs (t : ℚ) : List ℚ :=
  if t ≤ 1 then t :: loopTs (t + 5/100) else []
termination_by (⌈(1 - t) * 20⌉ + 1).toNat
decreasing_by
  rename_i h
  have hx : (1 - (t + 5/100)) * 20 = (1 - t) * 20 - 1 := by ring
  have hc : ⌈(1 - (t + 5/100)) * 20⌉ = ⌈(1 - t) * 20⌉ - 1 := by
    rw [hx]
    exact_mod_cast Int.ceil_sub_int ((1 - t) * 20) 1
  have h0 : (0 : ℚ) ≤ (1 - t) * 20 := by nlinarith
  have h1 : (0 : ℤ) < ⌈(1 - t) * 20⌉ + 1 := by
    have := Int.ceil_nonneg h0
    omega
  rw [hc]
  omega

/-- The `t` samples under exact arithmetic. -/
def idealTs : List ℚ := loopTs 0

/-- The polyline of Bézier samples under exact arithmetic (source
lines 396–408): one point per loop iterate. -/
noncomputable def curvePoints (o c d : ℝ × ℝ) : List (ℝ × ℝ) :=
  idealTs.map (fun t : ℚ => bezier o c d (t : ℝ))

namespace F64

/-!
Binary64 model of the same loop.  Every value the loop manipulates is
a nonnegative integer multiple of `2 ^ (-57)` well below `2 ^ 58 ·
2 ^ (-57)`: the literal `0.05` lies in the binade `[2 ^ (-5), 2 ^ (-4))`
whose unit in the last place is `2 ^ (-57)`, and every later
accumulated value is at least `0.05`, so its rounding grid is
`2 ^ (-57)` or coarser.  A double is therefore represented here by its
numerator at scale `2 ^ 57` (a natural number), on which IEEE-754
round-to-nearest-even addition and comparison are exactly computable. -/

/-- Largest `p ≤ start` with `2 ^ p ≤ n`, by fuel-bounded descent
(for the scaled magnitudes of this loop, `p < 59`). -/
def binadePow : ℕ → ℕ → ℕ → ℕ
  | 0, p, _ => p
  | fuel + 1, p, n => if 2 ^ p ≤ n then p else binadePow fuel (p - 1) n

/-- Round a scaled value to the nearest binary64 value, ties to even:
a value in the binade `[2 ^ (p - 57), 2 ^ (p - 56))` has unit in the
last place `2 ^ (p - 109)`, that is `2 ^ (p - 52)` scaled units (for
`p < 53` the grid is finer than one scaled unit and the value is
already exact). -/
def rndN (n : ℕ) : ℕ :=
  if n = 0 then 0
  else
    let p := binadePow 70 58 n
    if p < 53 then n
    else
      let step := 2 ^ (p - 52)
      let m := n / step
      let r := n % step
      if 2 * r < step then m * step
      else if 2 * r > step then (m + 1) * step
      else if m % 2 = 0 then m * step else (m + 1) * step

/-- IEEE-754 binary64 addition of representable scaled values. -/
def addN (a b : ℕ) : ℕ := rndN (a + b)

/-- Nearest-even integer rounding of `a / b`, used to place the
decimal literal `0.05` on its `2 ^ (-57)` grid. -/
def roundDiv (a b : ℕ) : ℕ :=
  let q := a / b
  let r := a % b
  if 2 * r < b then q
  else if 2 * r > b then q + 1
  else if q % 2 = 0 then q else q + 1

/-- The double denoted by the literal `0.05`, scaled: the nearest
multiple of `2 ^ (-57)` to `1/20`. -/
def lit05 : ℕ := roundDiv (2 ^ 57) 20

/-- The double `1.0`, scaled. -/
def one : ℕ := 2 ^ 57

/-- The loop under binary64 accumulation (comparison of doubles is
exact, so `t <= 1` is an exact comparison of scaled values).  The
guard permits at most 21 iterations; fuel 30 is strictly more. -/
def loopTsF : ℕ → ℕ → List ℕ
  | 0, _ => []
  | fuel + 1, t => if t ≤ one then t :: loopTsF fuel (addN t lit05) else []

/-- The `t` samples the running program actually produces, scaled by
`2 ^ 57`. -/
def jsTs : List ℕ := loopTsF 30 0

end F64

/-! ### JavaScript special values on the degenerate path

`JSNum` models a JavaScript number with the IEEE special values; the
finite parts are exact reals (rounding is irrelevant to the
division-by-zero path this model serves).  The single zero stands for
`+0`, which is the zero this path actually produces
(`Math.sqrt(+0) = +0`). -/
inductive JSNum where
  | nan : JSNum
  | inf : Bool → JSNum
  | fin : ℝ → JSNum

namespace JSNum

noncomputable def add : JSNum → JSNum → JSNum
  | nan, _ => nan
  | _, nan => nan
  | inf b, inf c => if b = c then inf b else nan
  | inf b, fin _ => inf b
  | fin _, inf b => inf b
  | fin x, fin y => fin (x + y)

noncomputable def neg : JSNum → JSNum
  | nan => nan
  | inf b => inf !b
  | fin x => fin (-x)

noncomputable def sub (a b : JSNum) : JSNum := add a (neg b)

noncomputable def mul : JSNum → JSNum → JSNum
  | nan, _ => nan
  | _, nan => nan
  | inf b, inf c => inf (b == c)
  | inf b, fin x => if x = 0 then nan else if 0 < x then inf b else inf !b
  | fin x, inf b => if x = 0 then nan else if 0 < x then inf b else inf !b
  | fin x, fin y => fin (x * y)

noncomputable def div : JSNum → JSNum → JSNum
  | nan, _ => nan
  | _, nan => nan
  | inf _, inf _ => nan
  | inf b, fin y => if y < 0 then inf !b else inf b
  | fin _, inf _ => fin 0
  | fin x, fin y =>
    if y = 0 then (if x = 0 then nan else if 0 < x then inf true else inf false)
    else fin (x / y)

noncomputable def sqrt : JSNum → JSNum
  | nan => nan
  | inf b => if b then inf true else nan
  | fin x => if x < 0 then nan else fin (Real.sqrt x)

end JSNum

/-- The intermediate values of the per-destination geometry that the
degenerate-input claim is about. -/
structure JSGeom where
  normFactor : JSNum
  controlPointX : JSNum
  controlPointY : JSNum
  curveX0 : JSNum

/-- Source lines 370–401 under JavaScript number semantics, for finite
input coordinates `origin = (o1, o2)`, `destination = (d1, d2)`:
midpoint, distance (`Math.pow(x, 2)` realized as `x * x`, exact
either way), `controlHeight`, `normFactor`, perpendicular, control
point, and the `x`-coordinate of the `t = 0` curve sample (the Bézier
coefficients `(1-t)^2`, `2*(1-t)*t`, `t^2` are finite and are folded
into single finite factors). -/
noncomputable def jsGeom (o1 o2 d1 d2 : ℝ) : JSGeom :=
  let oX := JSNum.fin o1
  let oY := JSNum.fin o2
  let dX := JSNum.fin d1
  let dY := JSNum.fin d2
  let midX := JSNum.div (JSNum.add oX dX) (JSNum.fin 2)
  let midY := JSNum.div (JSNum.add oY dY) (JSNum.fin 2)
  let dx := JSNum.sub dX oX
  let dy := JSNum.sub dY oY
  let distance := JSNum.sqrt (JSNum.add (JSNum.mul dx dx) (JSNum.mul dy dy))
  let controlHeight := JSNum.mul distance (JSNum.fin (2/10))
  let nf := JSNum.div (JSNum.fin 1) (JSNum.sqrt (JSNum.add (JSNum.mul dx dx) (JSNum.mul dy dy)))
  let perpX := JSNum.mul (JSNum.neg dy) nf
  let perpY := JSNum.mul dx nf
  let cpX := JSNum.add midX (JSNum.mul perpX controlHeight)
  let cpY := JSNum.add midY (JSNum.mul perpY controlHeight)
  let x0 := JSNum.add (JSNum.add (JSNum.mul (JSNum.fin 1) oX) (JSNum.mul (JSNum.fin 0) cpX))
    (JSNum.mul (JSNum.fin 0) dX)
  { normFactor := nf, controlPointX := cpX, controlPointY := cpY, curveX0 := x0 }

/-! ### Concrete inputs used by the example and counterexample
theorems. -/

/-- A placeholder destination (only used as a `getD` default). -/
def mdDefault : MappedDest := ⟨.null, none, none, none, .null⟩

/-- A placeholder arc (only used as a `getD` default). -/
def arcDefault : ArcRender := ⟨mdDefault, "", 0, 0, 0⟩

/-- The spec's example row:
`KoordinatX = "40,98"`, `KoordinatY = "29,02"`, `visitor_count = 150`. -/
def exRow : RawRow :=
  ⟨.str "40,98", .str "29,02", .null, .null, .num 150, .null, .null, .null⟩

/-- The destination point the spec's example row must yield. -/
def exMapped : MappedDest :=
  ⟨.str "Unknown Location", some (2049/50), some (1451/50), some 150, .str "Unspecified"⟩

/-- A row whose `KoordinatX` is the number `0` (falsy in JavaScript)
with an in-range `KoordinatY` and a valid visitor count, and no
`latitude`/`longitude` pair. -/
def cRow : RawRow :=
  ⟨.num 0, .num (1451/50), .null, .null, .num 150, .null, .null, .null⟩

/-- Destinations with visitor counts 209, 179 and 100. -/
def exD1 : MappedDest := ⟨.str "A", some 1, some 1, some 209, .str "t"⟩

def exD2 : MappedDest := ⟨.str "B", some 2, some 2, some 179, .str "t"⟩

def exD3 : MappedDest := ⟨.str "C", some 3, some 3, some 100, .str "t"⟩

/-- Transcription of claim C4's right-hand side, exactly as worded
(no truthiness requirement): the coordinate pair — preferring the
`KoordinatX`/`KoordinatY` convention when both conventions are
present — parses, after comma-to-dot replacement and quote stripping,
to two finite numbers within range, and the visitor-count field parses
to a positive integer. -/
def claimC4Pred (row : RawRow) : Prop :=
  (∃ la ln : ℚ,
    coordParse (if row.KoordinatX ≠ CellVal.null ∧ row.KoordinatY ≠ CellVal.null
      then row.KoordinatX else row.latitude) = some la ∧
    coordParse (if row.KoordinatX ≠ CellVal.null ∧ row.KoordinatY ≠ CellVal.null
      then row.KoordinatY else row.longitude) = some ln ∧
    |la| ≤ 90 ∧ |ln| ≤ 180) ∧
  (∃ n : ℤ, visitorParse row.visitor_count = some n ∧ 0 < n)

/-- The amended criterion for claim C4: a row survives the pipeline
iff (a) one of the two column conventions has both fields truthy
(JavaScript truthiness: non-null, nonzero, nonempty), (b) the
visitor-count field is truthy and is `> 0` under JavaScript numeric
coercion, (c) the first truthy value of each coordinate fallback chain
parses (after comma-to-dot replacement and quote stripping) to a
finite number with `|lat| ≤ 90` and `|lng| ≤ 180`, and (d) the
visitor-count field's integer-prefix parse is a positive integer. -/
def amendedC4 (row : RawRow) : Prop :=
  ((truthy row.KoordinatX ∧ truthy row.KoordinatY) ∨
    (truthy row.latitude ∧ truthy row.longitude)) ∧
  (truthy row.visitor_count ∧ cellGtZero row.visitor_count) ∧
  (∃ la : ℚ, coordParse (chainX row) = some la ∧ |la| ≤ 90) ∧
  (∃ ln : ℚ, coordParse (chainY row) = some ln ∧ |ln| ≤ 180) ∧
  (∃ n : ℤ, visitorParse (jsOrCell row.visitor_count (.num 0)) = some n ∧ 0 < n)

/-! ## Theorems -/

theorem loopTs_closed : ∀ (m n : ℕ), n + m = 21 →
    loopTs ((n : ℚ) / 20) = (List.range' n m).map (fun k : ℕ => (k : ℚ) / 20) := by
  intro m
  induction m with
  | zero =>
    intro n hn
    have hn' : n = 21 := by omega
    subst hn'
    rw [loopTs, if_neg (by norm_num)]
    simp
  | succ m ih =>
    intro n hn
    have hle : ((n : ℚ) / 20) ≤ 1 := by
      rw [div_le_one (by norm_num)]
      exact_mod_cast (show n ≤ 20 by omega)
    rw [loopTs, if_pos hle]
    have harg : (n : ℚ) / 20 + 5/100 = ((n + 1 : ℕ) : ℚ) / 20 := by
      push_cast
      ring
    rw [harg, ih (n + 1) (by omega), List.range'_succ]
    simp

theorem idealTs_closed : idealTs = (List.range' 0 21).map (fun k : ℕ => (k : ℚ) / 20) := by
  rw [idealTs, show (0 : ℚ) = ((0 : ℕ) : ℚ) / 20 by norm_num]
  exact loopTs_closed 21 0 rfl

theorem bezier_zero (o c d : ℝ × ℝ) : bezier o c d 0 = o := by
  simp [bezier]

theorem bezier_one (o c d : ℝ × ℝ) : bezier o c d 1 = d := by
  norm_num [bezier]

theorem idealTs_head : idealTs.head? = some 0 := by
  rw [idealTs_closed, List.head?_map, List.head?_range']
  norm_num

theorem idealTs_last : idealTs.getLast? = some 1 := by
  rw [idealTs_closed, List.getLast?_map, List.getLast?_range']
  norm_num

/-- C1: the spec says the arc polyline samples the quadratic Bézier at
`t = 0, 0.05, …, 1.0`, producing exactly 21 points whose first point
is the origin and whose last point is the destination.  Under exact
arithmetic the loop indeed yields the 21 samples `t = k/20`
(`k = 0, …, 20`) and the polyline starts at the origin and ends at the
destination — this is the evident intent of the loop condition
`t <= 1`.  But under the binary64 arithmetic the program actually
executes, the accumulated `t` overshoots (after 20 additions of the
double `0.05` it equals `1.0000000000000002 > 1`), so the loop yields
only 20 samples, never samples `t = 1`, and its last sample is
`0.9500000000000003` (the scaled value `136909428672063120 / 2^57`):
the rendered polyline stops short of the destination. -/
theorem c1_bezier_sampling :
    (idealTs = (List.range' 0 21).map (fun k : ℕ => (k : ℚ) / 20) ∧
      idealTs.length = 21 ∧
      (∀ o c d : ℝ × ℝ, (curvePoints o c d).length = 21 ∧
        (curvePoints o c d).head? = some o ∧
        (curvePoints o c d).getLast? = some d)) ∧
    (F64.jsTs.length = 20 ∧
      F64.jsTs.head? = some 0 ∧
      F64.one ∉ F64.jsTs ∧
      F64.jsTs.getLast? = some 136909428672063120 ∧
      136909428672063120 < F64.one) := by
  refine ⟨⟨idealTs_closed, ?_, ?_⟩, ?_, ?_, ?_, ?_, ?_⟩
  · rw [idealTs_closed]
    simp
  · intro o c d
    refine ⟨?_, ?_, ?_⟩
    · rw [curvePoints, List.length_map, idealTs_closed]
      simp
    · rw [curvePoints, List.head?_map, idealTs_head]
      simp [bezier_zero]
    · rw [curvePoints, List.getLast?_map, idealTs_last]
      simp [bezier_one]
  · decide
  · decide
  · decide
  · decide
  · decide

theorem jsnum_add_nan_right : ∀ x : JSNum, JSNum.add x .nan = .nan := by
  intro x
  cases x <;> rfl

theorem jsnum_mul_nan_right : ∀ x : JSNum, JSNum.mul x .nan = .nan := by
  intro x
  cases x <;> rfl

theorem jsnum_add_nan_left : ∀ x : JSNum, JSNum.add .nan x = .nan := by
  intro x
  cases x <;> rfl

theorem jsnum_mul_nan_left : ∀ x : JSNum, JSNum.mul .nan x = .nan := by
  intro x
  cases x <;> rfl

/-- C3: the spec demands that the coincident-destination case
(`distance == 0`) be guarded so that no division by zero produces an
undefined control point or curve.  The code has no such guard: with
`origin = destination` it computes
`normFactor = 1 / Math.sqrt(0) = Infinity`, the perpendicular
components become `0 * Infinity = NaN`, and the control point and
every curve sample (including the `t = 0` one) are `NaN`.  Evaluated
here at `origin = destination = (0, 0)`. -/
theorem c3_degenerate_nan :
    (jsGeom 0 0 0 0).normFactor = JSNum.inf true ∧
    (jsGeom 0 0 0 0).controlPointX = JSNum.nan ∧
    (jsGeom 0 0 0 0).controlPointY = JSNum.nan ∧
    (jsGeom 0 0 0 0).curveX0 = JSNum.nan := by
  have h0 : JSNum.sub (.fin 0) (.fin 0) = .fin 0 := by
    simp [JSNum.sub, JSNum.neg, JSNum.add]
  have hmul0 : JSNum.mul (.fin 0) (.fin 0) = .fin 0 := by
    simp [JSNum.mul]
  have hadd0 : JSNum.add (.fin 0) (.fin 0) = .fin 0 := by
    simp [JSNum.add]
  have hsqrt0 : JSNum.sqrt (.fin 0) = .fin 0 := by
    simp [JSNum.sqrt]
  have hdiv : JSNum.div (.fin 1) (.fin 0) = .inf true := by
    norm_num [JSNum.div]
  have hneg0 : JSNum.neg (.fin 0) = .fin 0 := by
    simp [JSNum.neg]
  have hmulinf : JSNum.mul (.fin 0) (.inf true) = .nan := by
    simp [JSNum.mul]
  have hmid : JSNum.div (JSNum.add (.fin 0) (.fin 0)) (.fin 2) = .fin 0 := by
    norm_num [JSNum.add, JSNum.div]
  have hch : JSNum.mul (.fin 0) (.fin (2/10)) = .fin 0 := by
    norm_num [JSNum.mul]
  have hnanmul : JSNum.mul JSNum.nan (.fin 0) = JSNum.nan := rfl
  have hfinnan : JSNum.add (.fin 0) JSNum.nan = JSNum.nan := rfl
  have hmul1 : JSNum.mul (.fin 1) (.fin 0) = .fin 0 := by
    norm_num [JSNum.mul]
  refine ⟨?_, ?_, ?_, ?_⟩ <;>
    simp only [jsGeom, h0, hmul0, hadd0, hsqrt0, hdiv, hneg0, hmulinf, hmid, hch,
      hnanmul, hfinnan, hmul1, jsnum_mul_nan_right, jsnum_add_nan_right,
      jsnum_mul_nan_left, jsnum_add_nan_left]

/-- C2: for `1 ≤ visitorCount ≤ maxVisitorCount` the normalized value
`0.3 + (visitorCount / maxVisitorCount) * 0.7` lies in `[0.3, 1.0]`,
and the control point equals the component-wise midpoint of origin and
destination plus the unit perpendicular of `destination - origin`
scaled by `controlHeight = 0.2` times the Euclidean norm of
`destination - origin`; the perpendicular is a unit vector orthogonal
to `destination - origin`. -/
theorem c2_normalized_and_control_point (v maxV : ℤ) (o d : ℝ × ℝ)
    (hv : 1 ≤ v) (hvm : v ≤ maxV) (hod : d ≠ o) :
    (normalizedValue v maxV = 3/10 + (v : ℚ) / (maxV : ℚ) * (7/10) ∧
      3/10 ≤ normalizedValue v maxV ∧ normalizedValue v maxV ≤ 1) ∧
    (ctrlHeight o d = (2/10) * specNorm o d ∧
      controlPoint o d = specControlPoint o d ∧
      (specPerpUnit o d).1 ^ 2 + (specPerpUnit o d).2 ^ 2 = 1 ∧
      (specPerpUnit o d).1 * (d.1 - o.1) + (specPerpUnit o d).2 * (d.2 - o.2) = 0) := by
  have hm : (0 : ℚ) < (maxV : ℚ) := by
    exact_mod_cast lt_of_lt_of_le one_pos (le_trans hv hvm)
  have hr0 : (0 : ℚ) ≤ (v : ℚ) / (maxV : ℚ) := by positivity
  have hr1 : (v : ℚ) / (maxV : ℚ) ≤ 1 := by
    rw [div_le_one hm]
    exact_mod_cast hvm
  have hsq : ((d.1 - o.1) * (d.1 - o.1) + (d.2 - o.2) * (d.2 - o.2)) =
      ((d.1 - o.1) ^ 2 + (d.2 - o.2) ^ 2) := by ring
  have hne : d.1 - o.1 ≠ 0 ∨ d.2 - o.2 ≠ 0 := by
    by_contra hcon
    push_neg at hcon
    apply hod
    have h1 : d.1 = o.1 := by linarith [hcon.1, sub_eq_zero.mp hcon.1]
    have h2 : d.2 = o.2 := by linarith [hcon.2, sub_eq_zero.mp hcon.2]
    exact Prod.ext h1 h2
  have hpos : (0 : ℝ) < (d.1 - o.1) ^ 2 + (d.2 - o.2) ^ 2 := by
    rcases hne with h | h
    · have := lt_of_le_of_ne (sq_nonneg (d.1 - o.1)) (Ne.symm (pow_ne_zero 2 h))
      nlinarith [sq_nonneg (d.2 - o.2)]
    · have := lt_of_le_of_ne (sq_nonneg (d.2 - o.2)) (Ne.symm (pow_ne_zero 2 h))
      nlinarith [sq_nonneg (d.1 - o.1)]
  have hSpos : 0 < specNorm o d := Real.sqrt_pos.mpr hpos
  refine ⟨⟨rfl, ?_, ?_⟩, ?_, ?_, ?_, ?_⟩
  · unfold normalizedValue
    nlinarith
  · unfold normalizedValue
    nlinarith
  · unfold ctrlHeight distanceOD specNorm
    ring
  · unfold controlPoint specControlPoint midPt perp normFactor ctrlHeight distanceOD
      specPerpUnit specNorm
    rw [hsq, Prod.ext_iff]
    constructor
    · simp only
      ring
    · simp only
      ring
  · have hunit : (specPerpUnit o d).1 ^ 2 + (specPerpUnit o d).2 ^ 2 =
        ((d.2 - o.2) ^ 2 + (d.1 - o.1) ^ 2) / (specNorm o d) ^ 2 := by
      unfold specPerpUnit
      ring
    rw [hunit, specNorm, Real.sq_sqrt hpos.le, add_comm]
    exact div_self (ne_of_gt hpos)
  · unfold specPerpUnit
    ring

/-- Witness for `c2_normalized_and_control_point` at
`visitorCount = maxVisitorCount = 1`, `origin = (0, 0)`,
`destination = (0, 10)`. -/
theorem c2_witness :
    ((1 : ℤ) ≤ 1 ∧ ((0, 10) : ℝ × ℝ) ≠ ((0, 0) : ℝ × ℝ)) ∧
    ((normalizedValue 1 1 = 3/10 + (1 : ℚ) / (1 : ℚ) * (7/10) ∧
      3/10 ≤ normalizedValue 1 1 ∧ normalizedValue 1 1 ≤ 1) ∧
    (ctrlHeight ((0, 0) : ℝ × ℝ) ((0, 10) : ℝ × ℝ) =
        (2/10) * specNorm ((0, 0) : ℝ × ℝ) ((0, 10) : ℝ × ℝ) ∧
      controlPoint ((0, 0) : ℝ × ℝ) ((0, 10) : ℝ × ℝ) =
        specControlPoint ((0, 0) : ℝ × ℝ) ((0, 10) : ℝ × ℝ) ∧
      (specPerpUnit ((0, 0) : ℝ × ℝ) ((0, 10) : ℝ × ℝ)).1 ^ 2 +
        (specPerpUnit ((0, 0) : ℝ × ℝ) ((0, 10) : ℝ × ℝ)).2 ^ 2 = 1 ∧
      (specPerpUnit ((0, 0) : ℝ × ℝ) ((0, 10) : ℝ × ℝ)).1 * ((0, 10) : ℝ × ℝ).1 +
        (specPerpUnit ((0, 0) : ℝ × ℝ) ((0, 10) : ℝ × ℝ)).2 * ((0, 10) : ℝ × ℝ).2 = 0)) := by
  have hne : ((0, 10) : ℝ × ℝ) ≠ ((0, 0) : ℝ × ℝ) := by
    simp [Prod.ext_iff]
  have h := c2_normalized_and_control_point 1 1 ((0, 0) : ℝ × ℝ) ((0, 10) : ℝ × ℝ)
    (le_refl 1) (le_refl 1) hne
  refine ⟨⟨le_refl 1, hne⟩, h.1, h.2.1, h.2.2.1, ?_, ?_⟩
  · have := h.2.2.2.1
    simpa using this
  · have := h.2.2.2.2
    simpa using this

theorem offset_mod : ∀ t : ℕ, offsetSeq 10 t = ((t % 20 : ℕ) : ℚ) := by
  intro t
  induction t with
  | zero => simp [offsetSeq]
  | succ t ih =>
    have hr : t % 20 < 20 := Nat.mod_lt _ (by norm_num)
    have hstep : offsetSeq 10 (t + 1) = jsMod (((t % 20 : ℕ) : ℚ) + 1) 20 := by
      rw [show offsetSeq 10 (t + 1) = jsMod (offsetSeq 10 t + 1) (10 * 2) from rfl, ih]
      norm_num
    rw [hstep]
    by_cases h19 : t % 20 = 19
    · have hsucc : (t + 1) % 20 = 0 := by omega
      rw [h19, hsucc]
      norm_num [jsMod]
    · have hsucc : (t + 1) % 20 = t % 20 + 1 := by omega
      rw [hsucc]
      have hfl : ⌊(((t % 20 : ℕ) : ℚ) + 1) / 20⌋ = 0 := by
        rw [Int.floor_eq_zero_iff]
        constructor
        · positivity
        · rw [div_lt_one (by norm_num)]
          have : ((t % 20 : ℕ) : ℚ) + 1 ≤ 19 := by
            have h18 : t % 20 ≤ 18 := by omega
            have : ((t % 20 : ℕ) : ℚ) ≤ 18 := by exact_mod_cast h18
            linarith
          linarith
      unfold jsMod
      rw [hfl]
      push_cast
      ring

/-- C7: the dash animation starts at offset 0 and each tick advances
it by `offset := (offset + 1) mod (2 * dashArrayLength)` where
`dashArrayLength = 5 + normalized * 5`; for `dashArrayLength = 10`
(that is `normalized = 1`) the offset sequence satisfies
`offset(t) = t mod 20` for all `t ≥ 0` and is periodic with
period 20. -/
theorem c7_dash_offset : ∀ t : ℕ,
    dashLen 1 = 10 ∧
    offsetSeq (dashLen 1) 0 = 0 ∧
    offsetSeq (dashLen 1) (t + 1) = jsMod (offsetSeq (dashLen 1) t + 1) (dashLen 1 * 2) ∧
    offsetSeq (dashLen 1) t = ((t % 20 : ℕ) : ℚ) ∧
    offsetSeq (dashLen 1) (t + 20) = offsetSeq (dashLen 1) t := by
  intro t
  have hdl : dashLen 1 = 10 := by norm_num [dashLen]
  refine ⟨hdl, rfl, rfl, ?_, ?_⟩
  · rw [hdl]
    exact offset_mod t
  · rw [hdl, offset_mod, offset_mod]
    congr 1
    omega

theorem pulseTick_size (s : PulseState) :
    (pulseTick s).size = s.size + (if s.increasing then 1/2 else -(1/2)) := by
  cases hinc : s.increasing <;> simp [pulseTick, hinc, sub_eq_add_neg]

theorem pulseTick_opacity (s : PulseState) : (pulseTick s).opacity = s.opacity := by
  cases hinc : s.increasing <;> simp [pulseTick, hinc]

theorem pulseTick_size_of_false (s : PulseState) (h : s.increasing = false) :
    (pulseTick s).size = s.size - 1/2 := by
  simp [pulseTick, h]

theorem pulseTick_size_of_true (s : PulseState) (h : s.increasing = true) :
    (pulseTick s).size = s.size + 1/2 := by
  simp [pulseTick, h]

theorem pulseTick_inc_of_false (s : PulseState) (h : s.increasing = false) :
    (pulseTick s).increasing = (if (pulseTick s).size ≤ 10 then true else false) := by
  simp [pulseTick, h]

theorem pulseTick_inc_of_true (s : PulseState) (h : s.increasing = true) :
    (pulseTick s).increasing = (if 25 ≤ (pulseTick s).size then false else true) := by
  simp [pulseTick, h]

theorem pulse_inv : ∀ n : ℕ,
    (∃ k : ℤ, (pulseIter n).size = (k : ℚ) / 2) ∧
    10 ≤ (pulseIter n).size ∧ (pulseIter n).size ≤ 25 ∧
    ((pulseIter n).increasing = true → (pulseIter n).size ≤ 49/2) ∧
    ((pulseIter n).increasing = false → 21/2 ≤ (pulseIter n).size) ∧
    (pulseIter n).opacity = 3/10 := by
  intro n
  induction n with
  | zero =>
    exact ⟨⟨20, by norm_num [pulseIter, pulseInit]⟩,
      by norm_num [pulseIter, pulseInit], by norm_num [pulseIter, pulseInit],
      fun _ => by norm_num [pulseIter, pulseInit],
      fun h => by simp [pulseIter, pulseInit] at h,
      by norm_num [pulseIter, pulseInit]⟩
  | succ n ih =>
    obtain ⟨⟨k, hk⟩, h10, h25, hup, hdn, hop⟩ := ih
    have hPT : pulseIter (n + 1) = pulseTick (pulseIter n) := rfl
    rw [hPT]
    cases hinc : (pulseIter n).increasing
    · have hlow : 21/2 ≤ (pulseIter n).size := hdn hinc
      have hs : (pulseTick (pulseIter n)).size = (pulseIter n).size - 1/2 :=
        pulseTick_size_of_false _ hinc
      refine ⟨⟨k - 1, by rw [hs, hk]; push_cast; ring⟩,
        by rw [hs]; linarith, by rw [hs]; linarith,
        fun _ => by rw [hs]; linarith, ?_,
        by rw [pulseTick_opacity]; exact hop⟩
      intro hf
      rw [pulseTick_inc_of_false _ hinc] at hf
      by_cases hb : (pulseTick (pulseIter n)).size ≤ 10
      · rw [if_pos hb] at hf
        exact absurd hf (by simp)
      · push_neg at hb
        rw [hs, hk] at hb ⊢
        have h1 : (20 : ℚ) < (k : ℚ) - 1 := by linarith
        have h2 : (20 : ℤ) < k - 1 := by exact_mod_cast h1
        have h3 : (21 : ℤ) ≤ k - 1 := by omega
        have h4 : (21 : ℚ) ≤ (k : ℚ) - 1 := by exact_mod_cast h3
        linarith
    · have hhi : (pulseIter n).size ≤ 49/2 := hup hinc
      have hs : (pulseTick (pulseIter n)).size = (pulseIter n).size + 1/2 :=
        pulseTick_size_of_true _ hinc
      refine ⟨⟨k + 1, by rw [hs, hk]; push_cast; ring⟩,
        by rw [hs]; linarith, by rw [hs]; linarith, ?_,
        fun _ => by rw [hs]; linarith,
        by rw [pulseTick_opacity]; exact hop⟩
      intro ht
      rw [pulseTick_inc_of_true _ hinc] at ht
      by_cases hb : 25 ≤ (pulseTick (pulseIter n)).size
      · rw [if_pos hb] at ht
        exact absurd ht (by simp)
      · push_neg at hb
        rw [hs, hk] at hb ⊢
        have h1 : (k : ℚ) + 1 < 50 := by linarith
        have h2 : (k + 1 : ℤ) < 50 := by exact_mod_cast h1
        have h3 : (k + 1 : ℤ) ≤ 49 := by omega
        have h4 : (k : ℚ) + 1 ≤ 49 := by exact_mod_cast h3
        linarith

/-- Counterexample for C8: the pulse tick (source lines 552–561)
changes the radius but writes no opacity — after the first tick the
radius has moved from 10 to 10.5 while the opacity is unchanged at
0.3, so there is no "correlated opacity toggle". -/
theorem c8_no_opacity_toggle :
    (pulseIter 1).size ≠ (pulseIter 0).size ∧
    (pulseIter 1).opacity = (pulseIter 0).opacity := by
  norm_num [pulseIter, pulseInit, pulseTick]

/-- C8 (amended): starting from radius 10, after every tick the pulse
radius stays within `[10, 25]`; each tick changes the radius by
exactly 0.5 in the current direction; the direction reverses exactly
when the radius reaches a bound (`≥ 25` while increasing, `≤ 10` while
decreasing); the tick leaves the marker's opacity constant (there is
no opacity toggle in the interval body). -/
theorem c8_pulse_invariant : ∀ n : ℕ,
    (10 ≤ (pulseIter n).size ∧ (pulseIter n).size ≤ 25) ∧
    (pulseIter (n + 1)).size =
      (pulseIter n).size + (if (pulseIter n).increasing then 1/2 else -(1/2)) ∧
    (((pulseIter (n + 1)).increasing ≠ (pulseIter n).increasing) ↔
      (if (pulseIter n).increasing then 25 ≤ (pulseIter (n + 1)).size
        else (pulseIter (n + 1)).size ≤ 10)) ∧
    (pulseIter n).opacity = 3/10 := by
  intro n
  obtain ⟨_, h10, h25, _, _, hop⟩ := pulse_inv n
  have hPT : pulseIter (n + 1) = pulseTick (pulseIter n) := rfl
  refine ⟨⟨h10, h25⟩, ?_, ?_, hop⟩
  · rw [hPT, pulseTick_size]
  · rw [hPT]
    cases hinc : (pulseIter n).increasing
    · rw [pulseTick_inc_of_false _ hinc]
      by_cases hb : (pulseTick (pulseIter n)).size ≤ 10 <;> simp [hb]
    · rw [pulseTick_inc_of_true _ hinc]
      by_cases hb : 25 ≤ (pulseTick (pulseIter n)).size <;> simp [hb]

theorem length_insertVC (d : MappedDest) (l : List MappedDest) :
    (insertVC d l).length = l.length + 1 := by
  induction l with
  | nil => rfl
  | cons e es ih =>
    by_cases h : vcKey e ≤ vcKey d <;> simp [insertVC, h, ih]

theorem length_sortDesc (l : List MappedDest) :
    (sortByVisitorsDesc l).length = l.length := by
  induction l with
  | nil => rfl
  | cons e es ih =>
    rw [show sortByVisitorsDesc (e :: es) = insertVC e (sortByVisitorsDesc es) from rfl,
      length_insertVC, ih]
    rfl

theorem mem_insertVC (d b : MappedDest) (l : List MappedDest) :
    b ∈ insertVC d l ↔ b = d ∨ b ∈ l := by
  induction l with
  | nil => simp [insertVC]
  | cons e es ih =>
    by_cases h : vcKey e ≤ vcKey d
    · simp [insertVC, h]
    · simp [insertVC, h, ih]
      tauto

theorem sorted_insertVC (d : MappedDest) (l : List MappedDest)
    (h : List.Sorted (fun a b => vcKey b ≤ vcKey a) l) :
    List.Sorted (fun a b => vcKey b ≤ vcKey a) (insertVC d l) := by
  induction l with
  | nil => simp [insertVC]
  | cons e es ih =>
    rw [List.sorted_cons] at h
    by_cases hc : vcKey e ≤ vcKey d
    · rw [show insertVC d (e :: es) = d :: e :: es by simp [insertVC, hc],
        List.sorted_cons, List.sorted_cons]
      refine ⟨?_, h.1, h.2⟩
      intro b hb
      rcases List.mem_cons.mp hb with hb | hb
      · subst hb
        exact hc
      · exact le_trans (h.1 b hb) hc
    · rw [show insertVC d (e :: es) = e :: insertVC d es by simp [insertVC, hc],
        List.sorted_cons]
      refine ⟨?_, ih h.2⟩
      intro b hb
      rcases (mem_insertVC d b es).mp hb with hb | hb
      · subst hb
        exact le_of_lt (lt_of_not_le hc)
      · exact h.1 b hb

theorem sorted_sortDesc (l : List MappedDest) :
    List.Sorted (fun a b => vcKey b ≤ vcKey a) (sortByVisitorsDesc l) := by
  induction l with
  | nil => simp [sortByVisitorsDesc]
  | cons e es ih => exact sorted_insertVC e _ ih

theorem filter_insertVC (d : MappedDest) (l : List MappedDest) (v : ℤ) :
    (insertVC d l).filter (fun e => vcKey e == v) =
      (if vcKey d = v then [d] else []) ++ l.filter (fun e => vcKey e == v) := by
  induction l with
  | nil =>
    by_cases hdv : vcKey d = v <;> simp [insertVC, List.filter_cons, beq_iff_eq, hdv]
  | cons e es ih =>
    by_cases hc : vcKey e ≤ vcKey d
    · rw [show insertVC d (e :: es) = d :: e :: es by simp [insertVC, hc]]
      by_cases hdv : vcKey d = v <;> simp [List.filter_cons, hdv]
    · rw [show insertVC d (e :: es) = e :: insertVC d es by simp [insertVC, hc]]
      have hlt : vcKey d < vcKey e := lt_of_not_le hc
      by_cases hdv : vcKey d = v
      · have hev : ¬ vcKey e = v := by omega
        simp [List.filter_cons, ih, hdv, hev]
      · simp [List.filter_cons, ih, hdv]

theorem filter_sortDesc (l : List MappedDest) (v : ℤ) :
    (sortByVisitorsDesc l).filter (fun e => vcKey e == v) =
      l.filter (fun e => vcKey e == v) := by
  induction l with
  | nil => rfl
  | cons e es ih =>
    rw [show sortByVisitorsDesc (e :: es) = insertVC e (sortByVisitorsDesc es) from rfl,
      filter_insertVC, ih, List.filter_cons]
    by_cases hev : vcKey e = v <;> simp [hev]

theorem sortDesc_of_sorted (l : List MappedDest)
    (h : List.Sorted (fun a b => vcKey b ≤ vcKey a) l) :
    sortByVisitorsDesc l = l := by
  induction l with
  | nil => rfl
  | cons e es ih =>
    rw [List.sorted_cons] at h
    rw [show sortByVisitorsDesc (e :: es) = insertVC e (sortByVisitorsDesc es) from rfl,
      ih h.2]
    cases es with
    | nil => rfl
    | cons f fs =>
      have hf : vcKey f ≤ vcKey e := h.1 f (by simp)
      simp [insertVC, hf]

/-- C5: for every list of valid destinations and every `max`, the
selection `sort-descending-then-take` returns `min(length, max)`
elements, sorted non-increasing by `visitorCount`, with ties broken by
input order (formalized as stability: for every key value, the sorted
list restricted to that key equals the input restricted to that key),
and the selection is idempotent. -/
theorem c5_select_ranking : ∀ (l : List MappedDest) (max : ℕ),
    (select l max).length = Nat.min l.length max ∧
    List.Sorted (fun a b => vcKey b ≤ vcKey a) (select l max) ∧
    (∀ v : ℤ, (sortByVisitorsDesc l).filter (fun e => vcKey e == v) =
      l.filter (fun e => vcKey e == v)) ∧
    select (select l max) max = select l max := by
  intro l max
  have hsorted : List.Sorted (fun a b => vcKey b ≤ vcKey a) (select l max) :=
    List.Pairwise.sublist (List.take_sublist max _) (sorted_sortDesc l)
  refine ⟨?_, hsorted, fun v => filter_sortDesc l v, ?_⟩
  · rw [select, List.length_take, length_sortDesc, Nat.min_comm]
  · rw [show select (select l max) max = (sortByVisitorsDesc (select l max)).take max from rfl,
      sortDesc_of_sorted _ hsorted, select, List.take_take, Nat.min_self]

theorem processAll_foldl (maxV : ℤ) :
    ∀ (l : List (ℕ × (MappedDest × Bool))) (acc : List ArcRender),
    l.foldl (fun acc x => if x.2.2 then acc else acc ++ [render x.1 x.2.1 maxV]) acc =
      acc ++ (l.filter (fun x => !x.2.2)).map (fun x => render x.1 x.2.1 maxV) := by
  intro l
  induction l with
  | nil =>
    intro acc
    simp
  | cons a l ih =>
    intro acc
    by_cases h : a.2.2 <;> simp [List.foldl_cons, List.filter_cons, h, ih]

theorem processAll_eq (ds : List (MappedDest × Bool)) :
    processAll ds = (ds.enum.filter (fun x => !x.2.2)).map
      (fun x => render x.1 x.2.1 (maxVisitors (ds.map Prod.fst))) := by
  rw [show processAll ds = ds.enum.foldl
      (fun acc x => if x.2.2 then acc
        else acc ++ [render x.1 x.2.1 (maxVisitors (ds.map Prod.fst))]) [] from rfl,
    processAll_foldl]
  simp

/-- C9 (amended): an exception while constructing one destination's
arc is caught inside that iteration and the loop continues: the
rendering pass produces exactly the arcs of the non-failing
destinations, in order — but each is rendered with its original index
and with the maximum visitor count of the full list (including failing
destinations), so the results are not those of the failing-destination-
free list. -/
theorem c9_per_destination_isolation : ∀ ds : List (MappedDest × Bool),
    processAll ds = (ds.enum.filter (fun x => !x.2.2)).map
      (fun x => render x.1 x.2.1 (maxVisitors (ds.map Prod.fst))) :=
  fun ds => processAll_eq ds

/-- Counterexample for C9: with destinations `[exD1 (209 visitors),
exD2 (179 visitors)]` where the first one's arc construction throws,
the second is still processed — but it is rendered at index 1 with the
full-list maximum 209 (palette color 1, `#8B5CF6`), whereas with the
failing destination absent it would be rendered at index 0 with
maximum 179 (palette color 0, `#3B82F6`): the results differ,
contradicting the claim's "same as if the failing destination were
absent". -/
theorem c9_counterexample :
    processAll [(exD1, true), (exD2, false)] = [render 1 exD2 209] ∧
    processAll [(exD2, false)] = [render 0 exD2 179] ∧
    (render 1 exD2 209).color = "#8B5CF6" ∧
    (render 0 exD2 179).color = "#3B82F6" ∧
    processAll [(exD1, true), (exD2, false)] ≠ processAll [(exD2, false)] := by
  have hmax1 : maxVisitors [exD1, exD2] = 209 := by decide
  have hmax2 : maxVisitors [exD2] = 179 := by decide
  have h1 : processAll [(exD1, true), (exD2, false)] = [render 1 exD2 209] := by
    rw [processAll_eq]
    simp [List.enum, List.enumFrom, List.filter_cons, hmax1]
  have h2 : processAll [(exD2, false)] = [render 0 exD2 179] := by
    rw [processAll_eq]
    simp [List.enum, List.enumFrom, List.filter_cons, hmax2]
  have hc1 : (render 1 exD2 209).color = "#8B5CF6" := by
    simp [render, palette]
  have hc2 : (render 0 exD2 179).color = "#3B82F6" := by
    simp [render, palette]
  refine ⟨h1, h2, hc1, hc2, ?_⟩
  intro h
  rw [h1, h2] at h
  have hcol := congrArg (fun l => (l.headD arcDefault).color) h
  simp only [List.headD_cons] at hcol
  rw [hc1, hc2] at hcol
  exact absurd hcol (by decide)

theorem renderAll_eq (ds : List MappedDest) :
    renderAll ds = ds.enum.map (fun x => render x.1 x.2 (maxVisitors ds)) := by
  rw [renderAll, processAll_eq, List.enum_map]
  rw [show (List.map (fun d => (d, false)) ds).map Prod.fst = ds by
    rw [List.map_map, show (Prod.fst ∘ fun d : MappedDest => (d, false)) = id from rfl,
      List.map_id]]
  rw [List.filter_map]
  have hfil : (ds.enum.filter ((fun x => !x.2.2) ∘ Prod.map id (fun d => (d, false)))) =
      ds.enum := by
    apply List.filter_eq_self.mpr
    intro a _
    simp [Function.comp, Prod.map]
  rw [hfil, List.map_map]
  congr 1

/-- C6: the destination at rank `i` is rendered with stroke weight
`2 + normalized * 3`, marker radius `5 + normalized * 5`, dash-array
length `5 + normalized * 5` and palette color `i mod 5` (so the
highest-visitor-count destination gets palette index 0); and
end-to-end, with three valid destinations of visitor counts
`[209, 179, 100]` and `maxArcs = 2`, exactly the first two are
rendered, in that order, with palette colors 0 and 1. -/
theorem c6_rank_visuals :
    (∀ (ds : List MappedDest) (i : ℕ), i < ds.length →
      (renderAll ds).getD i arcDefault =
        { dest := ds.getD i mdDefault
          color := palette.getD (i % 5) ""
          weight := 2 + normalizedValue (vcKey (ds.getD i mdDefault)) (maxVisitors ds) * 3
          radius := 5 + normalizedValue (vcKey (ds.getD i mdDefault)) (maxVisitors ds) * 5
          dashArray := 5 + normalizedValue (vcKey (ds.getD i mdDefault)) (maxVisitors ds) * 5 }) ∧
    select [exD1, exD2, exD3] 2 = [exD1, exD2] ∧
    (renderAll (select [exD1, exD2, exD3] 2)).map ArcRender.color = ["#3B82F6", "#8B5CF6"] := by
  have hsel : select [exD1, exD2, exD3] 2 = [exD1, exD2] := by decide
  refine ⟨?_, hsel, ?_⟩
  · intro ds i hi
    rw [renderAll_eq, List.getD_eq_getElem?_getD, List.getElem?_map, List.getElem?_enum,
      List.getElem?_eq_getElem hi]
    rw [show ds.getD i mdDefault = ds[i] by
      rw [List.getD_eq_getElem?_getD, List.getElem?_eq_getElem hi]
      rfl]
    simp [render, dashLen, palette]
  · rw [hsel, renderAll_eq]
    simp [List.enum, List.enumFrom, render, palette]

/-- Witness for `c6_rank_visuals` at the one-destination list
`[exD1]`, index 0. -/
theorem c6_rank_visuals_witness :
    0 < [exD1].length ∧
    (renderAll [exD1]).getD 0 arcDefault =
      { dest := [exD1].getD 0 mdDefault
        color := palette.getD (0 % 5) ""
        weight := 2 + normalizedValue (vcKey ([exD1].getD 0 mdDefault)) (maxVisitors [exD1]) * 3
        radius := 5 + normalizedValue (vcKey ([exD1].getD 0 mdDefault)) (maxVisitors [exD1]) * 5
        dashArray :=
          5 + normalizedValue (vcKey ([exD1].getD 0 mdDefault)) (maxVisitors [exD1]) * 5 } :=
  ⟨by decide, c6_rank_visuals.1 [exD1] 0 (by decide)⟩

/-- C10: whenever `drawArcs` is invoked with a null map reference, an
empty destination list, or absent restaurant coordinates, it returns
early without any mutation: the map state is unchanged (no layer added
or removed) and no animation timer is started. -/
theorem c10_guard_no_mutation : ∀ (m : Option (List Layer))
    (ds : List (MappedDest × Bool)) (rc : Option (ℚ × ℚ)),
    (m = none ∨ ds = [] ∨ rc = none) → drawArcsM m ds rc = (m, 0) := by
  intro m ds rc h
  match m with
  | none => rfl
  | some st =>
    rcases h with h | h | h
    · exact absurd h (by simp)
    · subst h
      rfl
    · subst h
      by_cases hd : ds.isEmpty <;> simp [drawArcsM, hd]

/-- Witness for `c10_guard_no_mutation` with a null map reference, one
destination and present coordinates. -/
theorem c10_guard_witness :
    ((none : Option (List Layer)) = none ∨
      ([(mdDefault, false)] : List (MappedDest × Bool)) = [] ∨
      (some ((0 : ℚ), (0 : ℚ)) : Option (ℚ × ℚ)) = none) ∧
    drawArcsM none [(mdDefault, false)] (some (0, 0)) = (none, 0) :=
  ⟨Or.inl rfl, c10_guard_no_mutation none [(mdDefault, false)] (some (0, 0)) (Or.inl rfl)⟩

theorem mem_normStep_singleton (row : RawRow) :
    toMapped row ∈ normStep [row] ↔
      (rowHasData row = true ∧ validMapped (toMapped row) = true) := by
  by_cases h1 : rowHasData row <;> by_cases h2 : validMapped (toMapped row) <;>
    simp [normStep, List.filter_cons, h1, h2]

theorem rowHasData_iff (row : RawRow) :
    rowHasData row = true ↔
      (((truthy row.KoordinatX ∧ truthy row.KoordinatY) ∨
        (truthy row.latitude ∧ truthy row.longitude)) ∧
       (truthy row.visitor_count ∧ cellGtZero row.visitor_count)) := by
  simp [rowHasData, Bool.and_eq_true, Bool.or_eq_true]

theorem validMapped_iff (row : RawRow) :
    validMapped (toMapped row) = true ↔
      ((∃ la : ℚ, coordParse (chainX row) = some la ∧ |la| ≤ 90) ∧
       (∃ ln : ℚ, coordParse (chainY row) = some ln ∧ |ln| ≤ 180) ∧
       (∃ n : ℤ, visitorParse (jsOrCell row.visitor_count (.num 0)) = some n ∧ 0 < n)) := by
  have hlat : (toMapped row).lat = coordParse (chainX row) := rfl
  have hlng : (toMapped row).lng = coordParse (chainY row) := rfl
  have hvc : (toMapped row).visitorCount =
      visitorParse (jsOrCell row.visitor_count (.num 0)) := rfl
  rcases hl : coordParse (chainX row) with _ | la <;>
    rcases hg : coordParse (chainY row) with _ | ln <;>
      rcases hv : visitorParse (jsOrCell row.visitor_count (.num 0)) with _ | n <;>
        simp [validMapped, hlat, hlng, hvc, hl, hg, hv, and_assoc]

/-- Counterexample for C4: the row `cRow` has `KoordinatX = 0` (a
finite in-range latitude) and `KoordinatY = 29.02` and
`visitor_count = 150`, so the claim's criterion (the preferred pair
parses to in-range finite numbers, visitor count positive) holds — yet
the pipeline excludes the row, because the JS truthiness test
`row.KoordinatX && row.KoordinatY` is false for the number `0` and no
`latitude`/`longitude` pair is present. -/
theorem c4_counterexample : claimC4Pred cRow ∧ normStep [cRow] = [] := by
  constructor
  · constructor
    · refine ⟨0, 1451/50, ?_, ?_, ?_, ?_⟩
      · rw [if_pos (by simp [cRow])]
        rfl
      · rw [if_pos (by simp [cRow])]
        rfl
      · rw [abs_le]
        constructor <;> norm_num
      · rw [abs_le]
        constructor <;> norm_num
    · refine ⟨150, ?_, by norm_num⟩
      have : visitorParse cRow.visitor_count = some (if (0:ℚ) ≤ 150 then ⌊(150:ℚ)⌋ else ⌈(150:ℚ)⌉) := rfl
      rw [this, if_pos (by norm_num)]
      norm_num
  · decide

/-- C4 (amended): a raw row yields a destination point iff one of the
two coordinate-column conventions has both fields truthy (JavaScript
truthiness — so a `0` coordinate or empty string disqualifies a pair),
the visitor-count field is truthy and positive under JS numeric
coercion, the first truthy value of each coordinate fallback chain
parses (after comma-to-dot replacement and quote stripping) to a
finite number with `|lat| ≤ 90` and `|lng| ≤ 180`, and the
visitor-count's integer-prefix parse is positive; and the spec's
example row `KoordinatX = "40,98"`, `KoordinatY = "29,02"`,
`visitor_count = 150` yields `lat = 40.98`, `lng = 29.02`,
`visitorCount = 150`. -/
theorem c4_normalization :
    (∀ row : RawRow, toMapped row ∈ normStep [row] ↔ amendedC4 row) ∧
    normStep [exRow] = [exMapped] := by
  constructor
  · intro row
    rw [mem_normStep_singleton, rowHasData_iff, validMapped_iff, amendedC4]
    tauto
  · have h40 : natOfDigits ['4', '0'] = 40 := by decide
    have h98 : natOfDigits ['9', '8'] = 98 := by decide
    have h29 : natOfDigits ['2', '9'] = 29 := by decide
    have h02 : natOfDigits ['0', '2'] = 2 := by decide
    have hx : coordParse (chainX exRow) =
        some ((natOfDigits ['4', '0'] : ℚ) + (natOfDigits ['9', '8'] : ℚ) / 10 ^ (2 : ℕ)) := rfl
    have hy : coordParse (chainY exRow) =
        some ((natOfDigits ['2', '9'] : ℚ) + (natOfDigits ['0', '2'] : ℚ) / 10 ^ (2 : ℕ)) := rfl
    have hx' : coordParse (chainX exRow) = some (2049/50) := by
      rw [hx, h40, h98]
      norm_num
    have hy' : coordParse (chainY exRow) = some (1451/50) := by
      rw [hy, h29, h02]
      norm_num
    have hv : visitorParse (jsOrCell exRow.visitor_count (.num 0)) = some 150 := by decide
    have hmap : toMapped exRow = exMapped := by
      rw [show toMapped exRow =
        { name := jsOrCell exRow.place_name (jsOrCell exRow.MusteriTabelaAdi
            (.str "Unknown Location")),
          lat := coordParse (chainX exRow),
          lng := coordParse (chainY exRow),
          visitorCount := visitorParse (jsOrCell exRow.visitor_count (.num 0)),
          type := jsOrCell exRow.MusteriCesidi (.str "Unspecified") } from rfl,
        hx', hy', hv]
      rfl
    have hdata : rowHasData exRow = true := by decide
    have hvalid : validMapped (toMapped exRow) = true := by
      rw [hmap]
      simp only [validMapped, exMapped, Bool.and_eq_true, decide_eq_true_eq, abs_le]
      norm_num
    rw [show normStep [exRow] = if validMapped (toMapped exRow)
        then (if rowHasData exRow then [toMapped exRow] else []) else [] from by
      by_cases h1 : rowHasData exRow <;> by_cases h2 : validMapped (toMapped exRow) <;>
        simp [normStep, List.filter_cons, h1, h2],
      if_pos hvalid, if_pos hdata, hmap]

end BigChefs
